import Mathlib

/-
Verification of the geological history engine of the plate-simulation
package: models/events.py, models/series.py, models/main.py, models/plates.py
and utils.py, shallowly embedded over lists of real numbers.

External collaborators (simpeg_drivers.active_from_xyz, trimesh signed
distance) are taken as parameters of the embedding; geoh5py objects are
carried as plain records.  Python exceptions are modelled with Except.
-/

namespace PlateSim

/-- Three dimensional point or vector with componentwise arithmetic. -/
abbrev V3 : Type := ℝ × ℝ × ℝ

/-- Model cell value: a finite float, or numpy nan marking an inactive (air)
cell. -/
inductive PVal where
  | nan : PVal
  | val (x : ℝ) : PVal

instance : Inhabited PVal := ⟨PVal.nan⟩

/-- Python exceptions raised by the embedded code. -/
inductive PyError where
  | geologyViolation (msg : String)
  | valueError (msg : String)
  | typeError (msg : String)
  | indexError
deriving DecidableEq

/-- geoh5py Surface as consumed by this package: a name and a nullable vertex
array (geoh5py permits vertices to be None).  Triangles are only consumed by
the external trimesh query and are not carried. -/
structure PSurface where
  name : String
  vertices : Option (List V3)

instance : Inhabited PSurface := ⟨⟨"", none⟩⟩

/-- External octree mesh interface: nullable cell count, cell centroids, and
the named data attached by add_data. -/
structure Octree where
  nCells : Option ℕ
  centroids : List V3
  data : List (String × List PVal)

/-- geoh5py Octree.add_data: attach named values to the mesh and return the
resulting data values. -/
def Octree.add_data (mesh : Octree) (name : String) (values : List PVal) :
    Octree × List PVal :=
  ({ mesh with data := mesh.data ++ [(name, values)] }, values)

/-- Signature of simpeg_drivers.utils.utils.active_from_xyz, an external
collaborator: mesh, surface vertices, cell reference mode, to a boolean mask
over cells. -/
abbrev ActiveFromXyz : Type := Octree → List V3 → String → List Bool

/-- Signature of the external trimesh ProximityQuery signed distance: mesh and
closed surface to the signed distance of each cell centroid. -/
abbrev SignedDist : Type := Octree → PSurface → List ℝ

/-- events.py Boundary: wraps a surface used as a horizon. -/
structure Boundary where
  surface : PSurface

/-- events.py Boundary.vertical_shift: the surface vertices shifted vertically
by offset; raises ValueError when the surface has no vertices. -/
def Boundary.vertical_shift (b : Boundary) (offset : ℝ) :
    Except PyError (List V3) :=
  match b.surface.vertices with
  | none => .error (.valueError "Surface vertices are not defined.")
  | some vs => .ok (vs.map (fun p => p + ((0 : ℝ), (0 : ℝ), offset)))

/-- events.py Boundary.mask: active_from_xyz applied to the vertically shifted
surface vertices and the cell reference mode. -/
def Boundary.mask (afx : ActiveFromXyz) (b : Boundary) (mesh : Octree)
    (offset : ℝ) (reference : String) : Except PyError (List Bool) :=
  (b.vertical_shift offset).map (fun vs => afx mesh vs reference)

/-- events.py Body: wraps a closed surface. -/
structure Body where
  surface : PSurface

/-- events.py Body.mask: signed distance of each centroid to the closed
surface, strictly positive meaning inside. -/
noncomputable def Body.mask (sd : SignedDist) (b : Body) (mesh : Octree) :
    List Bool :=
  (sd mesh b.surface).map (fun dist => decide (0 < dist))

/-- numpy boolean mask assignment model[mask] = v over aligned lists. -/
def setWhere (mask : List Bool) (v : PVal) (model : List PVal) : List PVal :=
  List.zipWith (fun b x => if b then v else x) mask model

/-- The geological events of models/events.py together with the event series
of models/series.py, merged into one closed type: a Series element realizes
its own history by folding. -/
inductive Event where
  | deposition (surface : PSurface) (value : ℝ)
  | overburden (topography : PSurface) (thickness : ℝ) (value : ℝ)
  | erosion (surface : PSurface)
  | anomaly (surface : PSurface) (value : ℝ)
  | series (history : List Event)

instance : Inhabited Event := ⟨Event.series []⟩

mutual

/-- Event.realize of each variant in models/events.py: compute the variant's
own mask and overwrite the selected cells of the model. -/
noncomputable def Event.realize (afx : ActiveFromXyz) (sd : SignedDist)
    (mesh : Octree) : Event → List PVal → Except PyError (List PVal)
  | .deposition s v, model =>
      (Boundary.mask afx ⟨s⟩ mesh 0.0 "center").map
        (fun mask => setWhere mask (.val v) model)
  | .overburden t th v, model =>
      (Boundary.mask afx ⟨t⟩ mesh (-1 * th) "center").map
        (fun mask => setWhere (mask.map not) (.val v) model)
  | .erosion s, model =>
      (Boundary.mask afx ⟨s⟩ mesh 0.0 "center").map
        (fun mask => setWhere (mask.map not) .nan model)
  | .anomaly s v, model =>
      .ok (setWhere (Body.mask sd ⟨s⟩ mesh) (.val v) model)
  | .series hist, model => realizeSeq afx sd mesh hist model

/-- Series.realize of models/series.py: thread the model through each event of
the history in order. -/
noncomputable def realizeSeq (afx : ActiveFromXyz) (sd : SignedDist)
    (mesh : Octree) : List Event → List PVal → Except PyError (List PVal)
  | [], model => .ok model
  | e :: rest, model =>
      match Event.realize afx sd mesh e model with
      | .error err => .error err
      | .ok m => realizeSeq afx sd mesh rest m

end

/-- Python call semantics of realize: the numpy model array is passed by
object reference, assigned in place, and the same object is returned; the
arrays live on a heap addressed by index. -/
noncomputable def Event.realizeRef (afx : ActiveFromXyz) (sd : SignedDist)
    (mesh : Octree) (e : Event) (heap : List (List PVal)) (mid : ℕ) :
    Except PyError (List (List PVal) × ℕ) :=
  (Event.realize afx sd mesh e (heap.getD mid [])).map
    (fun m => (heap.set mid m, mid))

/-- Python negative indexing xs[-k]: defined when k ≤ len(xs), otherwise an
IndexError. -/
def pyIndexNeg {α : Type} (xs : List α) (k : ℕ) : Except PyError α :=
  if xs.length < k then .error .indexError
  else
    match xs[xs.length - k]? with
    | some e => .ok e
    | none => .error .indexError

/-- isinstance(k, Overburden) on a history element. -/
def Event.isOverburden : Event → Bool
  | .overburden _ _ _ => true
  | _ => false

/-- isinstance(k, Erosion) on a history element. -/
def Event.isErosion : Event → Bool
  | .erosion _ => true
  | _ => false

/-- series.py Geology._validate_overburden: if any element is an Overburden,
the element events[-2] must be one. -/
def validateOverburden (events : List Event) : Except PyError Unit :=
  if events.any Event.isOverburden then
    match pyIndexNeg events 2 with
    | .error e => .error e
    | .ok k =>
        if k.isOverburden then .ok ()
        else .error (.geologyViolation
          "Overburden events must occur before the final erosion in the history.")
  else .ok ()

/-- series.py Geology._validate_topography: the element events[-1] must be an
Erosion. -/
def validateTopography (events : List Event) : Except PyError Unit :=
  match pyIndexNeg events 1 with
  | .error e => .error e
  | .ok k =>
      if k.isErosion then .ok ()
      else .error (.geologyViolation
        "The last event in a geological history must be an erosion.")

/-- series.py Geology._validate_history: overburden check then topography
check. -/
def validateHistory (events : List Event) : Except PyError Unit :=
  match validateOverburden events with
  | .error e => .error e
  | .ok _ => validateTopography events

/-- series.py Geology: a history that passed validation. -/
structure Geology where
  history : List Event

/-- series.py Geology construction: the history setter validates and stores
the sequence. -/
def mkGeology (events : List Event) : Except PyError Geology :=
  match validateHistory events with
  | .error e => .error e
  | .ok _ => .ok ⟨events⟩

/-- series.py Scenario: mesh, background value, validated history and output
name.  The workspace handle is pure I/O and not carried. -/
structure Scenario where
  mesh : Octree
  background : ℝ
  history : Geology
  name : String

/-- series.py Scenario construction: the mesh setter requires n_cells, then
the raw history is replaced by a validated Geology. -/
def mkScenario (mesh : Octree) (background : ℝ) (history : List Event)
    (name : String) : Except PyError Scenario :=
  match mesh.nCells with
  | none => .error (.valueError "Mesh must have n_cells.")
  | some _ =>
      match mkGeology history with
      | .error e => .error e
      | .ok g => .ok ⟨mesh, background, g, name⟩

/-- numpy elementwise ** -1.0 on a model array; nan maps to nan.  A zero entry
would give inf in numpy, which has no counterpart here and is avoided by the
claims. -/
noncomputable def recipModel (m : List PVal) : List PVal :=
  m.map (fun p => match p with | .nan => .nan | .val x => .val x⁻¹)

/-- series.py Scenario.geologize: fold the validated history over the
background filled model, take the elementwise reciprocal, attach the result
to the mesh under the scenario name and return the attached data. -/
noncomputable def Scenario.geologize (afx : ActiveFromXyz) (sd : SignedDist)
    (s : Scenario) : Except PyError (Octree × List PVal) :=
  match s.mesh.nCells with
  | none => .error (.valueError "Mesh must have n_cells.")
  | some n =>
      (realizeSeq afx sd s.mesh s.history.history
          (List.replicate n (.val s.background))).map
        (fun geology => s.mesh.add_data s.name (recipModel geology))

/-- main.py Scenario.geologize, the historical variant: same fold, attached
without the reciprocal; np.ones(None) would raise a TypeError. -/
noncomputable def Scenario.geologizeMain (afx : ActiveFromXyz)
    (sd : SignedDist) (s : Scenario) : Except PyError (Octree × List PVal) :=
  match s.mesh.nCells with
  | none => .error (.typeError "unsupported operand type for ones: NoneType")
  | some n =>
      (realizeSeq afx sd s.mesh s.history.history
          (List.replicate n (.val s.background))).map
        (fun model => s.mesh.add_data s.name model)

/-- Degrees to radians, np.deg2rad. -/
noncomputable def deg2rad (a : ℝ) : ℝ := a * Real.pi / 180

/-- utils.py azimuth_to_unit_vector: the row vector (0, 1, 0) times the
z rotation matrix of the azimuth, written as the explicit dot product. -/
noncomputable def azimuth_to_unit_vector (azimuth : ℝ) : V3 :=
  let theta := deg2rad azimuth
  (0 * Real.cos theta + 1 * Real.sin theta + 0 * 0,
   0 * (-Real.sin theta) + 1 * Real.cos theta + 0 * 0,
   0 * 0 + 1 * 0 + 0 * 1)

/-- Heap of geoh5py surface objects addressed by object identity. -/
abbrev SHeap := List PSurface

/-- Read a surface object from the heap. -/
def heapGet (h : SHeap) (i : ℕ) : PSurface := h.getD i default

/-- Overwrite a surface object on the heap. -/
def heapSet (h : SHeap) (i : ℕ) (s : PSurface) : SHeap := h.set i s

/-- utils.py replicate offsets:
np.arange(number) * spacing - (number - 1) * spacing / 2. -/
noncomputable def replicateOffsets (number : ℕ) (spacing : ℝ) : List ℝ :=
  (List.range number).map
    (fun (i : ℕ) => (i : ℝ) * spacing - ((number : ℝ) - 1) * spacing / 2)

/-- Object identities of
surfaces = [surface.copy() for i in range(number - 1)] + [surface]:
number - 1 freshly allocated copies followed by the original object itself. -/
def replicateIds (h : SHeap) (sid number : ℕ) : List ℕ :=
  (List.range (number - 1)).map (fun i => h.length + i) ++ [sid]

/-- Body of the loop in utils.py replicate: shift the vertices of surfaces[i]
in place, then rename it from the original surface's current name. -/
def replicateStep (u : V3) (offs : List ℝ) (sid : ℕ) (ids : List ℕ)
    (h : SHeap) (i : ℕ) : Except PyError SHeap :=
  let tid := ids.getD i 0
  let s := heapGet h tid
  match s.vertices with
  | none => .error (.typeError "unsupported operand type for +=: NoneType")
  | some vs =>
      let h1 := heapSet h tid
        { s with vertices := some (vs.map (fun p => p + offs.getD i 0 • u)) }
      let s1 := heapGet h1 tid
      .ok (heapSet h1 tid { s1 with name :=
        (heapGet h1 sid).name ++ " offset " ++ toString (i + 1) })

/-- utils.py replicate on the surface heap: allocate number - 1 copies of the
surface, append the original object, then offset and rename each entry along
the azimuth axis; returns the heap and the object identities of the result
list. -/
noncomputable def replicate (h : SHeap) (sid number : ℕ)
    (spacing azimuth : ℝ) : Except PyError (SHeap × List ℕ) :=
  let u := azimuth_to_unit_vector azimuth
  let offs := replicateOffsets number spacing
  let h0 := h ++ (List.range (number - 1)).map (fun _ => heapGet h sid)
  let ids := replicateIds h sid number
  match (List.range number).foldlM (replicateStep u offs sid ids) h0 with
  | .error e => .error e
  | .ok h' => .ok (h', ids)

/-- models/params.py PlateParams, restricted to the fields the geometry
consumes.  The reference field is documented on the class and read by
plates.py. -/
structure PlateParams where
  name : String
  plate : ℝ
  width : ℝ
  strike_length : ℝ
  dip_length : ℝ
  dip : ℝ
  dip_direction : ℝ
  number : ℕ
  spacing : ℝ
  reference : String

/-- Rotation about the x axis by a radians. -/
noncomputable def rotX (a : ℝ) (v : V3) : V3 :=
  (v.1, Real.cos a * v.2.1 - Real.sin a * v.2.2,
   Real.sin a * v.2.1 + Real.cos a * v.2.2)

/-- Rotation about the z axis by a radians. -/
noncomputable def rotZ (a : ℝ) (v : V3) : V3 :=
  (Real.cos a * v.1 - Real.sin a * v.2.1,
   Real.sin a * v.1 + Real.cos a * v.2.1, v.2.2)

/-- Modelled from the spec: rotate_xyz lives in the external geoapps_utils
package and is not under src/.  Section 4.1 specifies rotating each point
about the pivot by the azimuth angle about the vertical axis first, then by
the dip angle about the horizontal axis produced by that first rotation,
which composes to pivot + Rz(theta) (Rx(phi) (p - pivot)), angles in
degrees. -/
noncomputable def rotate_xyz (xyz : List V3) (pivot : V3) (theta phi : ℝ) :
    List V3 :=
  xyz.map (fun p => pivot + rotZ (deg2rad theta) (rotX (deg2rad phi) (p - pivot)))

/-- plates.py Plate.vertices before rotation: the eight corners of the
axis-aligned box centered at (center_x, center_y, center_z). -/
noncomputable def Plate.corners (params : PlateParams) (cx cy cz : ℝ) : List V3 :=
  let u_1 := cx - params.strike_length / 2
  let u_2 := cx + params.strike_length / 2
  let v_1 := cy - params.dip_length / 2
  let v_2 := cy + params.dip_length / 2
  let w_1 := cz - params.width / 2
  let w_2 := cz + params.width / 2
  [(u_1, v_1, w_1), (u_2, v_1, w_1), (u_1, v_2, w_1), (u_2, v_2, w_1),
   (u_1, v_1, w_2), (u_2, v_1, w_2), (u_1, v_2, w_2), (u_2, v_2, w_2)]

/-- plates.py Plate._rotate before the reference point adjustment:
rotate_xyz(vertices, center, -1 * dip_direction, -1 * dip). -/
noncomputable def Plate.rotated_vertices (params : PlateParams)
    (cx cy cz : ℝ) : List V3 :=
  rotate_xyz (Plate.corners params cx cy cz) (cx, cy, cz)
    (-1 * params.dip_direction) (-1 * params.dip)

/-- Maximum of a list of reals, numpy max convention on nonempty input. -/
noncomputable def listMax : List ℝ → ℝ
  | [] => 0
  | [x] => x
  | x :: y :: xs => max x (listMax (y :: xs))

/-- Minimum of a list of reals, numpy min convention on nonempty input. -/
noncomputable def listMin : List ℝ → ℝ
  | [] => 0
  | [x] => x
  | x :: y :: xs => min x (listMin (y :: xs))

/-- Axis-aligned bounding box extents, max minus min per coordinate. -/
noncomputable def aabbExtents (l : List V3) : V3 :=
  (listMax (l.map (fun p => p.1)) - listMin (l.map (fun p => p.1)),
   listMax (l.map (fun p => p.2.1)) - listMin (l.map (fun p => p.2.1)),
   listMax (l.map (fun p => p.2.2)) - listMin (l.map (fun p => p.2.2)))

/-- Axis-aligned bounding box center, midpoint of max and min per
coordinate. -/
noncomputable def aabbCenter (l : List V3) : V3 :=
  ((listMax (l.map (fun p => p.1)) + listMin (l.map (fun p => p.1))) / 2,
   (listMax (l.map (fun p => p.2.1)) + listMin (l.map (fun p => p.2.1))) / 2,
   (listMax (l.map (fun p => p.2.2)) + listMin (l.map (fun p => p.2.2))) / 2)

/-- Concrete topography surface used by witnesses. -/
def demoSurface : PSurface := ⟨"topo", some [((0 : ℝ), 0, 1)]⟩

/-- Concrete surface with null vertices used by witnesses. -/
def demoSurfaceNone : PSurface := ⟨"empty", none⟩

/-- Concrete one cell mesh used by witnesses. -/
def demoMesh : Octree := ⟨some 1, [((0 : ℝ), 0, 0)], []⟩

/-- Concrete external boundary mask returning True for the single cell. -/
def afxTrue : ActiveFromXyz := fun _ _ _ => [true]

/-- Concrete external boundary mask returning False for the single cell. -/
def afxFalse : ActiveFromXyz := fun _ _ _ => [false]

/-- Concrete external signed distance query returning no cells. -/
def sdEmpty : SignedDist := fun _ _ => []

/-- Concrete plate surface stored on a one object heap used by witnesses. -/
def demoPlate : PSurface := ⟨"plate", some [((0 : ℝ), 0, 0)]⟩

/-- One object surface heap used by witnesses. -/
def demoHeap : SHeap := [demoPlate]

/-- Concrete scenario used to evaluate Scenario.geologize. -/
def demoScenario : Scenario := ⟨demoMesh, 2, ⟨[Event.erosion demoSurface]⟩, "model"⟩

/-- Concrete flat lying plate parameters with positive dimensions. -/
def demoParamsFlat : PlateParams :=
  ⟨"flat", 1, 6, 2, 4, 0, 0, 1, 0, "center"⟩

/-- Concrete flat lying plate parameters with a negative strike length. -/
def demoParamsNeg : PlateParams :=
  ⟨"neg", 1, 6, -2, 4, 0, 0, 1, 0, "center"⟩

section Lemmas

theorem zipWith_getElem? {α β γ : Type} (f : α → β → γ) (l1 : List α)
    (l2 : List β) (i : ℕ) :
    (List.zipWith f l1 l2)[i]? =
      (l1[i]?).bind (fun a => (l2[i]?).map (f a)) := by
  induction l1 generalizing l2 i with
  | nil => simp
  | cons a t ih =>
    cases l2 with
    | nil => simp
    | cons b t2 =>
      cases i with
      | zero => simp
      | succ j => simpa using ih t2 j

theorem setWhere_length (mask : List Bool) (v : PVal) (model : List PVal)
    (h : mask.length = model.length) :
    (setWhere mask v model).length = model.length := by
  simp [setWhere, h]

theorem setWhere_getElem?_false (mask : List Bool) (v : PVal)
    (model : List PVal) (i : ℕ) (h : mask[i]? = some false) :
    (setWhere mask v model)[i]? = model[i]? := by
  rw [setWhere, zipWith_getElem?, h]
  cases hmi : model[i]? <;> simp

theorem setWhere_getElem?_true (mask : List Bool) (v : PVal)
    (model : List PVal) (i : ℕ) (x : PVal) (h : mask[i]? = some true)
    (hx : model[i]? = some x) :
    (setWhere mask v model)[i]? = some v := by
  rw [setWhere, zipWith_getElem?, h, hx]
  simp

theorem pyIndexNeg_ok {α : Type} [Inhabited α] (xs : List α) (k : ℕ)
    (hk : 1 ≤ k) (hlen : k ≤ xs.length) :
    pyIndexNeg xs k = .ok (xs.getD (xs.length - k) default) := by
  have hlt : xs.length - k < xs.length := by omega
  unfold pyIndexNeg
  rw [if_neg (by omega)]
  rw [List.getElem?_eq_getElem hlt]
  simp [List.getD_eq_getElem?_getD, List.getElem?_eq_getElem hlt]

theorem validateOverburden_of_none (events : List Event)
    (hany : events.any Event.isOverburden = false) :
    validateOverburden events = .ok () := by
  simp [validateOverburden, hany]

theorem validateOverburden_of_some (events : List Event)
    (hany : events.any Event.isOverburden = true) (hlen : 2 ≤ events.length) :
    validateOverburden events =
      if (events.getD (events.length - 2) default).isOverburden then .ok ()
      else .error (.geologyViolation
        "Overburden events must occur before the final erosion in the history.") := by
  rw [validateOverburden, if_pos (by simp [hany]),
    pyIndexNeg_ok events 2 (by omega) hlen]

theorem validateTopography_eq (events : List Event)
    (hlen : 1 ≤ events.length) :
    validateTopography events =
      if (events.getD (events.length - 1) default).isErosion then .ok ()
      else .error (.geologyViolation
        "The last event in a geological history must be an erosion.") := by
  rw [validateTopography, pyIndexNeg_ok events 1 (by omega) hlen]

theorem setWhere_idem (mask : List Bool) (v : PVal) (model : List PVal) :
    setWhere mask v (setWhere mask v model) = setWhere mask v model := by
  induction mask generalizing model with
  | nil => simp [setWhere]
  | cons b bs ih =>
    cases model with
    | nil => simp [setWhere]
    | cons x xs =>
      simp only [setWhere, List.zipWith] at ih ⊢
      rw [ih]
      cases b <;> simp

end Lemmas

/-- C8: for every mesh, offset and reference mode, the boundary mask operation
fails with the descriptive ValueError when the surface has no vertices; it
never silently defaults. -/
theorem boundary_mask_no_vertices_fails (afx : ActiveFromXyz) (b : Boundary)
    (mesh : Octree) (offset : ℝ) (reference : String)
    (h : b.surface.vertices = none) :
    Boundary.mask afx b mesh offset reference =
      .error (.valueError "Surface vertices are not defined.") := by
  simp [Boundary.mask, Boundary.vertical_shift, h, Except.map]

/-- Witness for C8 at a concrete surface without vertices. -/
theorem boundary_mask_no_vertices_fails_witness :
    demoSurfaceNone.vertices = none ∧
    Boundary.mask afxTrue ⟨demoSurfaceNone⟩ demoMesh 0 "center" =
      .error (.valueError "Surface vertices are not defined.") :=
  ⟨rfl, boundary_mask_no_vertices_fails afxTrue ⟨demoSurfaceNone⟩ demoMesh 0
    "center" rfl⟩

/-- C5: Overburden.realize writes its value exactly on the cells where the
boundary mask of the topography computed with offset = -thickness and
reference "center" is False, leaves every cell where that mask is True
unchanged, and returns the resulting model. -/
theorem overburden_realize_spec (afx : ActiveFromXyz) (sd : SignedDist)
    (mesh : Octree) (t : PSurface) (th v : ℝ) (model : List PVal)
    (mask : List Bool)
    (hm : Boundary.mask afx ⟨t⟩ mesh (-1 * th) "center" = .ok mask)
    (hl : mask.length = model.length) :
    ∃ result : List PVal,
      Event.realize afx sd mesh (.overburden t th v) model = .ok result ∧
      result.length = model.length ∧
      (∀ (i : ℕ) (x : PVal), mask[i]? = some false → model[i]? = some x →
        result[i]? = some (PVal.val v)) ∧
      (∀ i : ℕ, mask[i]? = some true → result[i]? = model[i]?) := by
  refine ⟨setWhere (mask.map not) (.val v) model, ?_, ?_, ?_, ?_⟩
  · simp only [Event.realize]
    rw [hm]
    rfl
  · exact setWhere_length _ _ _ (by simpa using hl)
  · intro i x hfalse hx
    refine setWhere_getElem?_true _ _ _ _ x ?_ hx
    simp [List.getElem?_map, hfalse]
  · intro i htrue
    refine setWhere_getElem?_false _ _ _ _ ?_
    simp [List.getElem?_map, htrue]

/-- Witness for C5 on a one cell mesh with a False mask. -/
theorem overburden_realize_spec_witness :
    (Boundary.mask afxFalse ⟨demoSurface⟩ demoMesh (-1 * 1) "center" =
      .ok [false]) ∧
    ∃ result : List PVal,
      Event.realize afxFalse sdEmpty demoMesh
        (.overburden demoSurface 1 5) [PVal.val 0] = .ok result ∧
      result.length = [PVal.val 0].length ∧
      (∀ (i : ℕ) (x : PVal), ([false] : List Bool)[i]? = some false →
        [PVal.val 0][i]? = some x → result[i]? = some (PVal.val 5)) ∧
      (∀ i : ℕ, ([false] : List Bool)[i]? = some true →
        result[i]? = [PVal.val 0][i]?) :=
  ⟨rfl,
    overburden_realize_spec afxFalse sdEmpty demoMesh demoSurface 1 5
      [PVal.val 0] [false] rfl rfl⟩

/-- C7: Erosion.realize is idempotent; applying it twice with the same
surface yields the same model (hence the same nan cells) as applying it
once. -/
theorem erosion_realize_idempotent (afx : ActiveFromXyz) (sd : SignedDist)
    (mesh : Octree) (s : PSurface) (model : List PVal) :
    (Event.realize afx sd mesh (.erosion s) model).bind
      (Event.realize afx sd mesh (.erosion s)) =
    Event.realize afx sd mesh (.erosion s) model := by
  cases hmask : Boundary.mask afx ⟨s⟩ mesh 0.0 "center" with
  | error e => simp [Event.realize, hmask, Except.map, Except.bind]
  | ok mask =>
    simp [Event.realize, hmask, Except.map, Except.bind, setWhere_idem]

/-- C10: Deposition and Anomaly leave every cell whose mask entry is False
unchanged, Erosion leaves every cell whose mask entry is True unchanged, and
the realized array is the model object passed in, updated in place on the
array heap, all other heap entries untouched. -/
theorem event_realize_frame :
    (∀ (afx : ActiveFromXyz) (sd : SignedDist) (mesh : Octree) (s : PSurface)
      (v : ℝ) (model : List PVal) (mask : List Bool),
      Boundary.mask afx ⟨s⟩ mesh 0.0 "center" = .ok mask →
      mask.length = model.length →
      ∃ result : List PVal,
        Event.realize afx sd mesh (.deposition s v) model = .ok result ∧
        result.length = model.length ∧
        ∀ i : ℕ, mask[i]? = some false → result[i]? = model[i]?) ∧
    (∀ (afx : ActiveFromXyz) (sd : SignedDist) (mesh : Octree) (s : PSurface)
      (v : ℝ) (model : List PVal),
      (Body.mask sd ⟨s⟩ mesh).length = model.length →
      ∃ result : List PVal,
        Event.realize afx sd mesh (.anomaly s v) model = .ok result ∧
        result.length = model.length ∧
        ∀ i : ℕ, (Body.mask sd ⟨s⟩ mesh)[i]? = some false →
          result[i]? = model[i]?) ∧
    (∀ (afx : ActiveFromXyz) (sd : SignedDist) (mesh : Octree) (s : PSurface)
      (model : List PVal) (mask : List Bool),
      Boundary.mask afx ⟨s⟩ mesh 0.0 "center" = .ok mask →
      mask.length = model.length →
      ∃ result : List PVal,
        Event.realize afx sd mesh (.erosion s) model = .ok result ∧
        result.length = model.length ∧
        ∀ i : ℕ, mask[i]? = some true → result[i]? = model[i]?) ∧
    (∀ (afx : ActiveFromXyz) (sd : SignedDist) (mesh : Octree) (e : Event)
      (heap : List (List PVal)) (mid : ℕ) (model' : List PVal),
      Event.realize afx sd mesh e (heap.getD mid []) = .ok model' →
      Event.realizeRef afx sd mesh e heap mid = .ok (heap.set mid model', mid) ∧
      ∀ j : ℕ, j ≠ mid → (heap.set mid model')[j]? = heap[j]?) := by
  refine ⟨?_, ?_, ?_, ?_⟩
  · intro afx sd mesh s v model mask hm hl
    refine ⟨setWhere mask (.val v) model, ?_, setWhere_length _ _ _ hl, ?_⟩
    · simp only [Event.realize]
      rw [hm]
      rfl
    · intro i hfalse
      exact setWhere_getElem?_false _ _ _ _ hfalse
  · intro afx sd mesh s v model hl
    refine ⟨setWhere (Body.mask sd ⟨s⟩ mesh) (.val v) model, ?_,
      setWhere_length _ _ _ hl, ?_⟩
    · simp only [Event.realize]
    · intro i hfalse
      exact setWhere_getElem?_false _ _ _ _ hfalse
  · intro afx sd mesh s model mask hm hl
    refine ⟨setWhere (mask.map not) .nan model, ?_, ?_, ?_⟩
    · simp only [Event.realize]
      rw [hm]
      rfl
    · exact setWhere_length _ _ _ (by simpa using hl)
    · intro i htrue
      refine setWhere_getElem?_false _ _ _ _ ?_
      simp [List.getElem?_map, htrue]
  · intro afx sd mesh e heap mid model' hr
    constructor
    · simp only [Event.realizeRef]
      rw [hr]
      rfl
    · intro j hj
      exact List.getElem?_set_ne (fun h => hj h.symm)

/-- Witness for C10 at a concrete deposition, anomaly, erosion and reference
passing call on a one cell mesh. -/
theorem event_realize_frame_witness :
    (Boundary.mask afxFalse ⟨demoSurface⟩ demoMesh 0.0 "center" = .ok [false]) ∧
    (∃ result : List PVal,
      Event.realize afxFalse sdEmpty demoMesh (.deposition demoSurface 7)
        [PVal.val 3] = .ok result ∧
      result.length = [PVal.val 3].length ∧
      ∀ i : ℕ, ([false] : List Bool)[i]? = some false →
        result[i]? = [PVal.val 3][i]?) ∧
    (Event.realizeRef afxTrue sdEmpty demoMesh (.erosion demoSurface)
        [[PVal.val 3]] 0 = .ok ([[PVal.val 3]].set 0 [PVal.val 3], 0)) := by
  refine ⟨rfl, ?_, ?_⟩
  · exact event_realize_frame.1 afxFalse sdEmpty demoMesh demoSurface 7
      [PVal.val 3] [false] rfl rfl
  · exact (event_realize_frame.2.2.2 afxTrue sdEmpty demoMesh
      (.erosion demoSurface) [[PVal.val 3]] 0 [PVal.val 3] rfl).1

/-- C1 (amended): for every nonempty event sequence that, when it contains an
Overburden, has at least two elements, Geology construction raises the
overburden message exactly when some element is an Overburden and the element
at position length - 2 is not one; otherwise it raises the erosion message
exactly when the last element is not an Erosion; otherwise it succeeds and
the stored history equals the input sequence. -/
theorem mkGeology_spec (events : List Event)
    (h1 : events ≠ [])
    (h2 : events.any Event.isOverburden = true → 2 ≤ events.length) :
    mkGeology events =
      (if events.any Event.isOverburden &&
          !(events.getD (events.length - 2) default).isOverburden then
        .error (.geologyViolation
          "Overburden events must occur before the final erosion in the history.")
      else if !(events.getD (events.length - 1) default).isErosion then
        .error (.geologyViolation
          "The last event in a geological history must be an erosion.")
      else .ok ⟨events⟩) := by
  have hlen1 : 1 ≤ events.length := by
    cases events with
    | nil => exact absurd rfl h1
    | cons a t => simp
  rw [mkGeology, validateHistory]
  cases hany : events.any Event.isOverburden with
  | false =>
    rw [validateOverburden_of_none events hany,
      validateTopography_eq events hlen1]
    cases hero : (events.getD (events.length - 1) default).isErosion <;>
      simp [hero]
  | true =>
    rw [validateOverburden_of_some events hany (h2 hany)]
    cases hov : (events.getD (events.length - 2) default).isOverburden with
    | false => simp [hov]
    | true =>
      rw [if_pos rfl, validateTopography_eq events hlen1]
      cases hero : (events.getD (events.length - 1) default).isErosion <;>
        simp [hero]

/-- Witness for C1 at the concrete history [Overburden, Erosion], which
validates successfully and stores the input sequence. -/
theorem mkGeology_spec_witness :
    mkGeology [Event.overburden demoSurface 1 10, Event.erosion demoSurface] =
      .ok ⟨[Event.overburden demoSurface 1 10, Event.erosion demoSurface]⟩ := by
  have h := mkGeology_spec
    [Event.overburden demoSurface 1 10, Event.erosion demoSurface]
    (by simp) (fun _ => by simp)
  simpa [Event.isOverburden, Event.isErosion] using h

/-- Counterexample to C1 as stated: constructing a Geology from the empty
event sequence raises IndexError (from events[-1]), which is neither a
success nor a GeologyViolationError with one of the two fixed messages. -/
theorem mkGeology_empty_raises_indexError :
    mkGeology ([] : List Event) = .error .indexError ∧
    PyError.indexError ≠ PyError.geologyViolation
      "Overburden events must occur before the final erosion in the history." ∧
    PyError.indexError ≠ PyError.geologyViolation
      "The last event in a geological history must be an erosion." :=
  ⟨rfl, fun h => PyError.noConfusion h, fun h => PyError.noConfusion h⟩

/-- C2: series.py Scenario.geologize on a concrete one cell scenario with
background 2.0 and a single erosion that keeps the cell: the fold over the
history yields [2.0], but the attached data holds the reciprocal [0.5]; the
package's own series_test.py asserts the un-reciprocated fold values. -/
theorem geologize_attaches_reciprocal :
    mkScenario demoMesh 2 [Event.erosion demoSurface] "model" =
      .ok demoScenario ∧
    realizeSeq afxTrue sdEmpty demoMesh [Event.erosion demoSurface]
      (List.replicate 1 (PVal.val 2)) = .ok [PVal.val 2] ∧
    Scenario.geologize afxTrue sdEmpty demoScenario =
      .ok ({ demoMesh with data := [("model", [PVal.val ((2 : ℝ)⁻¹)])] },
        [PVal.val ((2 : ℝ)⁻¹)]) ∧
    PVal.val ((2 : ℝ)⁻¹) ≠ PVal.val 2 := by
  refine ⟨rfl, rfl, rfl, ?_⟩
  intro h
  injection h with h2
  norm_num at h2

section ReplicateLemmas

theorem heapSet_heapSet (h : SHeap) (i : ℕ) (a b : PSurface) :
    heapSet (heapSet h i a) i b = heapSet h i b := by
  simp only [heapSet, List.set_set]

theorem heapGet_set_self (h : SHeap) (i : ℕ) (s : PSurface)
    (hi : i < h.length) : heapGet (heapSet h i s) i = s := by
  simp [heapGet, heapSet, List.getD_eq_getElem?_getD,
    List.getElem?_set_eq_of_lt s hi]

theorem heapGet_set_ne (h : SHeap) (i j : ℕ) (s : PSurface) (hij : i ≠ j) :
    heapGet (heapSet h i s) j = heapGet h j := by
  simp [heapGet, heapSet, List.getD_eq_getElem?_getD, List.getElem?_set_ne hij]

theorem heapGet_append_left (h1 h2 : SHeap) (i : ℕ) (hi : i < h1.length) :
    heapGet (h1 ++ h2) i = heapGet h1 i := by
  simp [heapGet, List.getD_eq_getElem?_getD, List.getElem?_append_left hi]

theorem heapGet_append_right (h1 h2 : SHeap) (i : ℕ) :
    heapGet (h1 ++ h2) (h1.length + i) = heapGet h2 i := by
  simp [heapGet, List.getD_eq_getElem?_getD,
    List.getElem?_append_right (by omega : h1.length ≤ h1.length + i)]

theorem replicateIds_length (h : SHeap) (sid n : ℕ) (hn : 1 ≤ n) :
    (replicateIds h sid n).length = n := by
  simp [replicateIds]
  omega

theorem replicateIds_getD_lt (h : SHeap) (sid n i : ℕ) (hi : i < n - 1) :
    (replicateIds h sid n).getD i 0 = h.length + i := by
  simp only [replicateIds, List.getD_eq_getElem?_getD]
  rw [List.getElem?_append_left (by simpa using hi)]
  simp [List.getElem?_range hi]

theorem replicateIds_getD_last (h : SHeap) (sid n : ℕ) :
    (replicateIds h sid n).getD (n - 1) 0 = sid := by
  simp only [replicateIds, List.getD_eq_getElem?_getD]
  rw [List.getElem?_append_right (by simp)]
  simp

theorem replicateIds_injOn (h : SHeap) (sid n : ℕ) (hsid : sid < h.length) :
    ∀ i j, i < n → j < n → i ≠ j →
      (replicateIds h sid n).getD i 0 ≠ (replicateIds h sid n).getD j 0 := by
  intro i j hi hj hij
  rcases Nat.lt_or_ge i (n - 1) with hi1 | hi1 <;>
    rcases Nat.lt_or_ge j (n - 1) with hj1 | hj1
  · rw [replicateIds_getD_lt h sid n i hi1, replicateIds_getD_lt h sid n j hj1]
    omega
  · have hj2 : j = n - 1 := by omega
    rw [replicateIds_getD_lt h sid n i hi1, hj2, replicateIds_getD_last]
    omega
  · have hi2 : i = n - 1 := by omega
    rw [replicateIds_getD_lt h sid n j hj1, hi2, replicateIds_getD_last]
    omega
  · omega

theorem replicateIds_getD_bound (h : SHeap) (sid n k : ℕ)
    (hsid : sid < h.length) (hk : k < n) :
    (replicateIds h sid n).getD k 0 < h.length + (n - 1) := by
  rcases Nat.lt_or_ge k (n - 1) with hk1 | hk1
  · rw [replicateIds_getD_lt h sid n k hk1]
    omega
  · have hk2 : k = n - 1 := by omega
    rw [hk2, replicateIds_getD_last]
    omega

theorem replicateOffsets_getD (n : ℕ) (s : ℝ) (i : ℕ) (hi : i < n) :
    (replicateOffsets n s).getD i 0 =
      (i : ℝ) * s - ((n : ℝ) - 1) * s / 2 := by
  rw [replicateOffsets, List.getD_eq_getElem?_getD, List.getElem?_map,
    List.getElem?_range hi]
  rfl

theorem replicateOffsets_sum (n : ℕ) (s : ℝ) :
    (replicateOffsets n s).sum = 0 := by
  have key : ∀ (m : ℕ) (c : ℝ),
      ((List.range m).map (fun (i : ℕ) => (i : ℝ) * s - c)).sum =
        (m : ℝ) * ((m : ℝ) - 1) / 2 * s - m * c := by
    intro m c
    induction m with
    | zero => simp
    | succ m ih =>
      rw [List.range_succ, List.map_append, List.sum_append, ih]
      simp only [List.map_cons, List.map_nil, List.sum_cons, List.sum_nil]
      push_cast
      ring
  rw [replicateOffsets, key n (((n : ℝ) - 1) * s / 2)]
  ring

theorem replicateOffsets_symm (n : ℕ) (s : ℝ) (i : ℕ) (hi : i < n) :
    (replicateOffsets n s).getD (n - 1 - i) 0 =
      -((replicateOffsets n s).getD i 0) := by
  rw [replicateOffsets_getD n s (n - 1 - i) (by omega),
    replicateOffsets_getD n s i hi]
  have h1 : ((n - 1 - i : ℕ) : ℝ) = (n : ℝ) - 1 - (i : ℝ) := by
    have e : n - 1 - i = n - (1 + i) := by omega
    rw [e, Nat.cast_sub (by omega)]
    push_cast
    ring
  rw [h1]
  ring

theorem azimuth_to_unit_vector_eq (az : ℝ) :
    azimuth_to_unit_vector az =
      (Real.sin (deg2rad az), Real.cos (deg2rad az), 0) := by
  simp [azimuth_to_unit_vector, Prod.ext_iff]

theorem replicate_loop_spec (h : SHeap) (sid n : ℕ) (s az : ℝ) (vs : List V3)
    (hsid : sid < h.length) (hv : (heapGet h sid).vertices = some vs)
    (hn : 1 ≤ n) :
    ∀ k, k ≤ n →
      ∃ hk : SHeap,
        (List.range k).foldlM
          (replicateStep (azimuth_to_unit_vector az) (replicateOffsets n s)
            sid (replicateIds h sid n))
          (h ++ (List.range (n - 1)).map (fun _ => heapGet h sid)) = .ok hk ∧
        hk.length = h.length + (n - 1) ∧
        (∀ i, i < k →
          heapGet hk ((replicateIds h sid n).getD i 0) =
            ⟨(heapGet h sid).name ++ " offset " ++ toString (i + 1),
             some (vs.map (fun p =>
               p + (replicateOffsets n s).getD i 0 •
                 azimuth_to_unit_vector az))⟩) ∧
        (∀ i, k ≤ i → i < n →
          heapGet hk ((replicateIds h sid n).getD i 0) = heapGet h sid) := by
  intro k
  induction k with
  | zero =>
    intro _
    refine ⟨h ++ (List.range (n - 1)).map (fun _ => heapGet h sid),
      rfl, by simp, fun i hi => absurd hi (by omega), ?_⟩
    intro i _ hi2
    rcases Nat.lt_or_ge i (n - 1) with hi1 | hi1
    · rw [replicateIds_getD_lt h sid n i hi1, heapGet_append_right]
      simp [heapGet, List.getD_eq_getElem?_getD,
        List.getElem?_replicate_of_lt hi1]
    · have hi3 : i = n - 1 := by omega
      rw [hi3, replicateIds_getD_last, heapGet_append_left h _ sid hsid]
  | succ k ih =>
    intro hk1
    obtain ⟨hk, hfold, hlen, hdone, hpend⟩ := ih (by omega)
    have hkn : k < n := by omega
    have htid := replicateIds_getD_bound h sid n k hsid hkn
    set u := azimuth_to_unit_vector az with hu
    set offs := replicateOffsets n s with hoffs
    set ids := replicateIds h sid n with hids
    set tid := ids.getD k 0 with htid_def
    have htid_lt : tid < hk.length := by omega
    have horig : heapGet hk tid = heapGet h sid := hpend k (le_refl k) hkn
    have hsid_pend : heapGet hk sid = heapGet h sid := by
      have := hpend (n - 1) (by omega) (by omega)
      rwa [replicateIds_getD_last] at this
    have hstep : replicateStep u offs sid ids hk k =
        .ok (heapSet hk tid
          ⟨(heapGet h sid).name ++ " offset " ++ toString (k + 1),
           some (vs.map (fun p => p + offs.getD k 0 • u))⟩) := by
      rw [replicateStep]
      simp only [← htid_def, horig, hv]
      have hname : (heapGet (heapSet hk tid
          { heapGet h sid with
            vertices := some (vs.map (fun p => p + offs.getD k 0 • u)) })
          sid).name = (heapGet h sid).name := by
        by_cases hts : tid = sid
        · rw [hts, heapGet_set_self _ _ _ (by omega)]
        · rw [heapGet_set_ne _ _ _ _ hts, hsid_pend]
      rw [heapGet_set_self _ _ _ htid_lt]
      rw [hname, heapSet_heapSet]
    refine ⟨heapSet hk tid
      ⟨(heapGet h sid).name ++ " offset " ++ toString (k + 1),
       some (vs.map (fun p => p + offs.getD k 0 • u))⟩,
      ?_, by simp [heapSet, hlen], ?_, ?_⟩
    · rw [List.range_succ, List.foldlM_append, hfold]
      show (replicateStep u offs sid ids hk k >>= pure) = _
      rw [hstep]
      rfl
    · intro i hi
      rcases Nat.lt_or_ge i k with hik | hik
      · rw [heapGet_set_ne _ _ _ _
          (replicateIds_injOn h sid n hsid k i hkn (by omega) (by omega))]
        exact hdone i hik
      · have hik2 : i = k := by omega
        subst hik2
        rw [heapGet_set_self _ _ _ htid_lt]
    · intro i hi hi2
      rw [heapGet_set_ne _ _ _ _
        (replicateIds_injOn h sid n hsid k i hkn hi2 (by omega))]
      exact hpend i (by omega) hi2

theorem replicate_spec (h : SHeap) (sid n : ℕ) (s az : ℝ) (vs : List V3)
    (hsid : sid < h.length) (hv : (heapGet h sid).vertices = some vs)
    (hn : 1 ≤ n) :
    ∃ h' : SHeap, replicate h sid n s az = .ok (h', replicateIds h sid n) ∧
      h'.length = h.length + (n - 1) ∧
      ∀ i, i < n →
        heapGet h' ((replicateIds h sid n).getD i 0) =
          ⟨(heapGet h sid).name ++ " offset " ++ toString (i + 1),
           some (vs.map (fun p =>
             p + (replicateOffsets n s).getD i 0 •
               azimuth_to_unit_vector az))⟩ := by
  obtain ⟨h', hfold, hlen, hmut, _⟩ :=
    replicate_loop_spec h sid n s az vs hsid hv hn n (le_refl n)
  refine ⟨h', ?_, hlen, hmut⟩
  simp only [replicate]
  rw [hfold]

end ReplicateLemmas

/-- C3: replicate returns exactly n surfaces; the i-th surface is the original
offset by (i * spacing - (n - 1) * spacing / 2) times the horizontal unit
vector (sin azimuth, cos azimuth, 0); the offsets sum to zero and the offset
positions are symmetric about the original location. -/
theorem replicate_offsets_centered (h : SHeap) (sid n : ℕ) (s az : ℝ)
    (vs : List V3) (hsid : sid < h.length)
    (hv : (heapGet h sid).vertices = some vs) (hn : 1 ≤ n) :
    ∃ h' : SHeap,
      replicate h sid n s az = .ok (h', replicateIds h sid n) ∧
      (replicateIds h sid n).length = n ∧
      (∀ i, i < n →
        (heapGet h' ((replicateIds h sid n).getD i 0)).vertices =
          some (vs.map (fun p =>
            p + ((i : ℝ) * s - ((n : ℝ) - 1) * s / 2) •
              azimuth_to_unit_vector az))) ∧
      (replicateOffsets n s).sum = 0 ∧
      (∀ i, i < n → (replicateOffsets n s).getD (n - 1 - i) 0 =
        -((replicateOffsets n s).getD i 0)) ∧
      azimuth_to_unit_vector az =
        (Real.sin (deg2rad az), Real.cos (deg2rad az), 0) := by
  obtain ⟨h', heq, hlen, hmut⟩ := replicate_spec h sid n s az vs hsid hv hn
  refine ⟨h', heq, replicateIds_length h sid n hn, ?_,
    replicateOffsets_sum n s, fun i hi => replicateOffsets_symm n s i hi,
    azimuth_to_unit_vector_eq az⟩
  intro i hi
  rw [hmut i hi]
  simp only [replicateOffsets_getD n s i hi]

/-- Witness for C3 at two plates spaced 10 apart along azimuth 90 degrees. -/
theorem replicate_offsets_centered_witness :
    (0 < demoHeap.length) ∧
    ((heapGet demoHeap 0).vertices = some [((0 : ℝ), 0, 0)]) ∧
    (∃ h' : SHeap,
      replicate demoHeap 0 2 10 90 = .ok (h', replicateIds demoHeap 0 2) ∧
      (replicateIds demoHeap 0 2).length = 2 ∧
      (∀ i, i < 2 →
        (heapGet h' ((replicateIds demoHeap 0 2).getD i 0)).vertices =
          some ([((0 : ℝ), 0, 0)].map (fun p =>
            p + ((i : ℝ) * 10 - ((2 : ℝ) - 1) * 10 / 2) •
              azimuth_to_unit_vector 90))) ∧
      (replicateOffsets 2 10).sum = 0 ∧
      (∀ i, i < 2 → (replicateOffsets 2 10).getD (2 - 1 - i) 0 =
        -((replicateOffsets 2 10).getD i 0)) ∧
      azimuth_to_unit_vector 90 =
        (Real.sin (deg2rad 90), Real.cos (deg2rad 90), 0)) :=
  ⟨by simp [demoHeap], rfl,
    replicate_offsets_centered demoHeap 0 2 10 90 [((0 : ℝ), 0, 0)]
      (by simp [demoHeap]) rfl (by norm_num)⟩

/-- C9: the last element of the list returned by replicate is the original
surface object itself (all earlier elements are freshly allocated copies);
after the call its vertices carry the final offset and its name carries the
" offset number" suffix, so the caller's surface loses its pre-call state. -/
theorem replicate_returns_original_mutated (h : SHeap) (sid n : ℕ)
    (s az : ℝ) (vs : List V3) (hsid : sid < h.length)
    (hv : (heapGet h sid).vertices = some vs) (hn : 1 ≤ n) :
    ∃ h' : SHeap,
      replicate h sid n s az = .ok (h', replicateIds h sid n) ∧
      (replicateIds h sid n).getLast? = some sid ∧
      (∀ i, i < n - 1 → h.length ≤ (replicateIds h sid n).getD i 0) ∧
      heapGet h' sid =
        ⟨(heapGet h sid).name ++ " offset " ++ toString n,
         some (vs.map (fun p =>
           p + (((n : ℝ) - 1) * s / 2) • azimuth_to_unit_vector az))⟩ ∧
      heapGet h' sid ≠ heapGet h sid := by
  obtain ⟨h', heq, hlen, hmut⟩ := replicate_spec h sid n s az vs hsid hv hn
  have hlast : (replicateIds h sid n).getLast? = some sid := by
    rw [replicateIds]
    exact List.getLast?_concat _
  have hfresh : ∀ i, i < n - 1 →
      h.length ≤ (replicateIds h sid n).getD i 0 := by
    intro i hi
    rw [replicateIds_getD_lt h sid n i hi]
    omega
  have hsid_eq : heapGet h' sid =
      ⟨(heapGet h sid).name ++ " offset " ++ toString n,
       some (vs.map (fun p =>
         p + (((n : ℝ) - 1) * s / 2) • azimuth_to_unit_vector az))⟩ := by
    have hm := hmut (n - 1) (by omega)
    rw [replicateIds_getD_last] at hm
    have hn1 : n - 1 + 1 = n := by omega
    rw [hn1] at hm
    have hoff : (replicateOffsets n s).getD (n - 1) 0 =
        ((n : ℝ) - 1) * s / 2 := by
      rw [replicateOffsets_getD n s (n - 1) (by omega), Nat.cast_sub hn]
      push_cast
      ring
    simp only [hoff] at hm
    exact hm
  refine ⟨h', heq, hlast, hfresh, hsid_eq, ?_⟩
  rw [hsid_eq]
  intro hcontra
  have hname : (heapGet h sid).name ++ " offset " ++ toString n =
      (heapGet h sid).name := congrArg PSurface.name hcontra
  have hlenname := congrArg String.length hname
  rw [String.length_append, String.length_append] at hlenname
  have h8 : (" offset " : String).length = 8 := rfl
  rw [h8] at hlenname
  omega

/-- Witness for C9 at two plates on the one object demo heap. -/
theorem replicate_returns_original_mutated_witness :
    (0 < demoHeap.length) ∧
    ((heapGet demoHeap 0).vertices = some [((0 : ℝ), 0, 0)]) ∧
    (∃ h' : SHeap,
      replicate demoHeap 0 2 10 0 = .ok (h', replicateIds demoHeap 0 2) ∧
      (replicateIds demoHeap 0 2).getLast? = some 0 ∧
      (∀ i, i < 2 - 1 →
        demoHeap.length ≤ (replicateIds demoHeap 0 2).getD i 0) ∧
      heapGet h' 0 =
        ⟨(heapGet demoHeap 0).name ++ " offset " ++ toString 2,
         some ([((0 : ℝ), 0, 0)].map (fun p =>
           p + (((2 : ℝ) - 1) * 10 / 2) • azimuth_to_unit_vector 0))⟩ ∧
      heapGet h' 0 ≠ heapGet demoHeap 0) :=
  ⟨by simp [demoHeap], rfl,
    replicate_returns_original_mutated demoHeap 0 2 10 0 [((0 : ℝ), 0, 0)]
      (by simp [demoHeap]) rfl (by norm_num)⟩

/-- C6 (amended): replicate with number = 1 returns the single original
surface object; no positional offset is applied to its vertices, but its
name is overwritten with the " offset 1" suffix. -/
theorem replicate_single_renamed (h : SHeap) (sid : ℕ) (s az : ℝ)
    (vs : List V3) (hsid : sid < h.length)
    (hv : (heapGet h sid).vertices = some vs) :
    ∃ h' : SHeap,
      replicate h sid 1 s az = .ok (h', [sid]) ∧
      heapGet h' sid = ⟨(heapGet h sid).name ++ " offset 1", some vs⟩ := by
  obtain ⟨h', heq, hlen, hmut⟩ :=
    replicate_spec h sid 1 s az vs hsid hv (le_refl 1)
  have hids : replicateIds h sid 1 = [sid] := by simp [replicateIds]
  rw [hids] at heq
  refine ⟨h', heq, ?_⟩
  have h0 := hmut 0 (by norm_num)
  rw [hids] at h0
  have hgd : ([sid] : List ℕ).getD 0 0 = sid := rfl
  rw [hgd] at h0
  have hoff : (replicateOffsets 1 s).getD 0 0 = 0 := by
    rw [replicateOffsets_getD 1 s 0 (by norm_num)]
    norm_num
  simp only [hoff, zero_smul, add_zero, List.map_id'] at h0
  rw [h0]
  have hstr : (heapGet h sid).name ++ " offset " ++ toString (0 + 1) =
      (heapGet h sid).name ++ " offset 1" := by
    rw [String.append_assoc]
    rfl
  rw [hstr]

/-- Witness for C6 at the one object demo heap. -/
theorem replicate_single_renamed_witness :
    (0 < demoHeap.length) ∧
    ((heapGet demoHeap 0).vertices = some [((0 : ℝ), 0, 0)]) ∧
    (∃ h' : SHeap,
      replicate demoHeap 0 1 10 0 = .ok (h', [0]) ∧
      heapGet h' 0 = ⟨(heapGet demoHeap 0).name ++ " offset 1",
        some [((0 : ℝ), 0, 0)]⟩) :=
  ⟨by simp [demoHeap], rfl,
    replicate_single_renamed demoHeap 0 10 0 [((0 : ℝ), 0, 0)]
      (by simp [demoHeap]) rfl⟩

/-- Counterexample to C6 as stated: replicate with number = 1 renames the
surface, appending " offset 1" to its name instead of keeping it. -/
theorem replicate_single_renames_anyway :
    (replicate demoHeap 0 1 10 0).map (fun r => (heapGet r.1 0).name) =
      .ok "plate offset 1" ∧
    "plate offset 1" ≠ "plate" := by
  constructor
  · obtain ⟨h', heq, hlen, hmut⟩ :=
      replicate_spec demoHeap 0 1 10 0 [((0 : ℝ), 0, 0)] (by simp [demoHeap])
        rfl (le_refl 1)
    rw [heq]
    have h0 := hmut 0 (by norm_num)
    have hgd : (replicateIds demoHeap 0 1).getD 0 0 = 0 := by
      simp [replicateIds, demoHeap]
    rw [hgd] at h0
    simp only [Except.map]
    rw [h0]
    rfl
  · decide

section GeometryLemmas

theorem deg2rad_zero : deg2rad 0 = 0 := by
  simp [deg2rad]

theorem rotX_zero (v : V3) : rotX 0 v = v := by
  simp [rotX]

theorem rotZ_zero (v : V3) : rotZ 0 v = v := by
  simp [rotZ]

theorem rotate_xyz_zero (xyz : List V3) (pivot : V3) :
    rotate_xyz xyz pivot 0 0 = xyz := by
  simp [rotate_xyz, deg2rad_zero, rotX_zero, rotZ_zero]

theorem listMax_altern (a b : ℝ) (hab : a ≤ b) :
    listMax [a, b, a, b, a, b, a, b] = b := by
  simp [listMax, max_eq_right hab, max_self, hab]

theorem listMin_altern (a b : ℝ) (hab : a ≤ b) :
    listMin [a, b, a, b, a, b, a, b] = a := by
  simp [listMin, min_eq_left hab, min_self, hab]

theorem listMax_altern' (a b : ℝ) (hba : b ≤ a) :
    listMax [a, b, a, b, a, b, a, b] = a := by
  simp [listMax, max_eq_left hba, max_eq_right hba, max_self, hba]

theorem listMin_altern' (a b : ℝ) (hba : b ≤ a) :
    listMin [a, b, a, b, a, b, a, b] = b := by
  simp [listMin, min_eq_right hba, min_eq_left hba, min_self, hba]

theorem listMax_pairs (a b : ℝ) (hab : a ≤ b) :
    listMax [a, a, b, b, a, a, b, b] = b := by
  simp [listMax, max_eq_right hab, max_self, hab]

theorem listMin_pairs (a b : ℝ) (hab : a ≤ b) :
    listMin [a, a, b, b, a, a, b, b] = a := by
  simp [listMin, min_eq_left hab, min_self, hab]

theorem listMax_halves (a b : ℝ) (hab : a ≤ b) :
    listMax [a, a, a, a, b, b, b, b] = b := by
  simp [listMax, max_eq_right hab, max_self, hab]

theorem listMin_halves (a b : ℝ) (hab : a ≤ b) :
    listMin [a, a, a, a, b, b, b, b] = a := by
  simp [listMin, min_eq_left hab, min_self, hab]

end GeometryLemmas

/-- C4 (amended): for plate parameters with dip = 0, dip_direction = 0 and
nonnegative dimensions, the eight prism vertices before the reference point
adjustment form an axis-aligned box centered at the given center whose
bounding box extents are strike_length along x (the strike axis), dip_length
along y (the dip axis) and width along z (the width axis). -/
theorem plate_prism_extents (params : PlateParams) (cx cy cz : ℝ)
    (hdip : params.dip = 0) (hdir : params.dip_direction = 0)
    (hs : 0 ≤ params.strike_length) (hd : 0 ≤ params.dip_length)
    (hw : 0 ≤ params.width) :
    aabbExtents (Plate.rotated_vertices params cx cy cz) =
      (params.strike_length, params.dip_length, params.width) ∧
    aabbCenter (Plate.rotated_vertices params cx cy cz) = (cx, cy, cz) := by
  have hrot : Plate.rotated_vertices params cx cy cz =
      Plate.corners params cx cy cz := by
    rw [Plate.rotated_vertices, hdip, hdir]
    norm_num [rotate_xyz_zero]
  have hx : (Plate.corners params cx cy cz).map (fun p => p.1) =
      [cx - params.strike_length / 2, cx + params.strike_length / 2,
       cx - params.strike_length / 2, cx + params.strike_length / 2,
       cx - params.strike_length / 2, cx + params.strike_length / 2,
       cx - params.strike_length / 2, cx + params.strike_length / 2] := rfl
  have hy : (Plate.corners params cx cy cz).map (fun p => p.2.1) =
      [cy - params.dip_length / 2, cy - params.dip_length / 2,
       cy + params.dip_length / 2, cy + params.dip_length / 2,
       cy - params.dip_length / 2, cy - params.dip_length / 2,
       cy + params.dip_length / 2, cy + params.dip_length / 2] := rfl
  have hz : (Plate.corners params cx cy cz).map (fun p => p.2.2) =
      [cz - params.width / 2, cz - params.width / 2,
       cz - params.width / 2, cz - params.width / 2,
       cz + params.width / 2, cz + params.width / 2,
       cz + params.width / 2, cz + params.width / 2] := rfl
  have hsx : cx - params.strike_length / 2 ≤ cx + params.strike_length / 2 :=
    by linarith
  have hsy : cy - params.dip_length / 2 ≤ cy + params.dip_length / 2 :=
    by linarith
  have hsz : cz - params.width / 2 ≤ cz + params.width / 2 := by linarith
  rw [hrot]
  constructor
  · simp only [aabbExtents]
    rw [hx, hy, hz, listMax_altern _ _ hsx, listMin_altern _ _ hsx,
      listMax_pairs _ _ hsy, listMin_pairs _ _ hsy,
      listMax_halves _ _ hsz, listMin_halves _ _ hsz]
    simp only [Prod.mk.injEq]
    refine ⟨by ring, by ring, by ring⟩
  · simp only [aabbCenter]
    rw [hx, hy, hz, listMax_altern _ _ hsx, listMin_altern _ _ hsx,
      listMax_pairs _ _ hsy, listMin_pairs _ _ hsy,
      listMax_halves _ _ hsz, listMin_halves _ _ hsz]
    simp only [Prod.mk.injEq]
    refine ⟨by ring, by ring, by ring⟩

/-- Witness for C4 at a concrete flat plate with dimensions 2, 4, 6 centered
at (1, 2, 3). -/
theorem plate_prism_extents_witness :
    demoParamsFlat.dip = 0 ∧ demoParamsFlat.dip_direction = 0 ∧
    0 ≤ demoParamsFlat.strike_length ∧ 0 ≤ demoParamsFlat.dip_length ∧
    0 ≤ demoParamsFlat.width ∧
    (aabbExtents (Plate.rotated_vertices demoParamsFlat 1 2 3) =
      (demoParamsFlat.strike_length, demoParamsFlat.dip_length,
        demoParamsFlat.width) ∧
     aabbCenter (Plate.rotated_vertices demoParamsFlat 1 2 3) = (1, 2, 3)) :=
  ⟨rfl, rfl, by norm_num [demoParamsFlat], by norm_num [demoParamsFlat],
    by norm_num [demoParamsFlat],
    plate_prism_extents demoParamsFlat 1 2 3 rfl rfl
      (by norm_num [demoParamsFlat]) (by norm_num [demoParamsFlat])
      (by norm_num [demoParamsFlat])⟩

/-- Counterexample to C4 as stated: with a negative strike_length of -2 the
bounding box extent along the strike axis is 2, not the strike_length value,
so the extents do not equal the parameters for every PlateParams. -/
theorem plate_prism_extents_neg_strike :
    aabbExtents (Plate.rotated_vertices demoParamsNeg 0 0 0) = (2, 4, 6) ∧
    (aabbExtents (Plate.rotated_vertices demoParamsNeg 0 0 0)).1 ≠
      demoParamsNeg.strike_length := by
  have hrot : Plate.rotated_vertices demoParamsNeg 0 0 0 =
      Plate.corners demoParamsNeg 0 0 0 := by
    rw [Plate.rotated_vertices]
    norm_num [demoParamsNeg, rotate_xyz_zero]
  have hx : (Plate.corners demoParamsNeg 0 0 0).map (fun p => p.1) =
      [(1 : ℝ), -1, 1, -1, 1, -1, 1, -1] := by
    norm_num [Plate.corners, demoParamsNeg]
  have hy : (Plate.corners demoParamsNeg 0 0 0).map (fun p => p.2.1) =
      [(-2 : ℝ), -2, 2, 2, -2, -2, 2, 2] := by
    norm_num [Plate.corners, demoParamsNeg]
  have hz : (Plate.corners demoParamsNeg 0 0 0).map (fun p => p.2.2) =
      [(-3 : ℝ), -3, -3, -3, 3, 3, 3, 3] := by
    norm_num [Plate.corners, demoParamsNeg]
  have hext : aabbExtents (Plate.rotated_vertices demoParamsNeg 0 0 0) =
      ((2 : ℝ), (4 : ℝ), (6 : ℝ)) := by
    rw [hrot]
    simp only [aabbExtents]
    rw [hx, hy, hz, listMax_altern' 1 (-1) (by norm_num),
      listMin_altern' 1 (-1) (by norm_num),
      listMax_pairs (-2) 2 (by norm_num), listMin_pairs (-2) 2 (by norm_num),
      listMax_halves (-3) 3 (by norm_num), listMin_halves (-3) 3 (by norm_num)]
    norm_num
  refine ⟨hext, ?_⟩
  rw [hext]
  norm_num [demoParamsNeg]

end PlateSim
